import Mathlib

/-!
Verification development for the sender-key / message-relay core of the
repository (source file `src/Signal/Group/sender-key-record.ts`, which
concatenates three modules: the `SenderKeyRecord` class, the messages
socket built by `makeMessagesSocket`, and the sender-key cleanup
utilities).  Each definition below is a shallow embedding of the
correspondingly named source function; JavaScript `undefined` is
modelled with `Option`, byte arrays with `List Nat`, JS numbers that the
code only compares and never rounds with `Int`, and the key-value store
/ wire effects with explicit event traces.
-/

/-! ## Part 1: SenderKeyRecord (sender-key-record.ts, class SenderKeyRecord) -/

/-- Byte strings (`Uint8Array`) are modelled as lists of naturals. -/
abbrev Bytes := List Nat

/-- Modelled from the spec: `sender-key-state.ts` is not under `src/`; §3 of the
spec gives the shape of a sender chain key (`{ iteration: u32 ≥ 0, seed: bytes }`).
`Option` marks fields that may be absent (JS `undefined`) in data decoded from
storage. -/
structure SenderChainKeyStructure where
  iteration : Option Int
  seed : Option Bytes
deriving DecidableEq

/-- Modelled from the spec: `signingKey: { public: bytes (nonempty), private?: bytes }`. -/
structure SenderSigningKeyStructure where
  pub : Option Bytes
  priv : Option Bytes
deriving DecidableEq

/-- Modelled from the spec: one entry of `senderMessageKeys` (`{iteration, seed}`). -/
structure SenderMessageKeyStructure where
  iteration : Option Int
  seed : Option Bytes
deriving DecidableEq

/-- The serialized shape of one sender-key state (interface
`SenderKeyStateStructure`, source lines 4–18). -/
structure SenderKeyStateStructure where
  senderKeyId : Option Int
  senderChainKey : Option SenderChainKeyStructure
  senderSigningKey : Option SenderSigningKeyStructure
  senderMessageKeys : List SenderMessageKeyStructure
deriving DecidableEq

/-- Modelled from the spec: a `SenderKeyState` (class in `sender-key-state.ts`,
not under `src/`) carries exactly its `SenderKeyStateStructure`; the getters
`getKeyId`, `getSenderChainKey`, `getSigningKeyPublic`, `getStructure` read the
corresponding structure fields. -/
abbrev SenderKeyState := SenderKeyStateStructure

/-- Modelled from the spec: `state.getStructure()` returns the state's structure. -/
def SenderKeyState.getStructure (s : SenderKeyState) : SenderKeyStateStructure := s

/-- Modelled from the spec: `new SenderKeyState(null, null, null, null, null, null, structure)`
wraps the given structure. -/
def SenderKeyState.fromStructure (s : SenderKeyStateStructure) : SenderKeyState := s

/-- Modelled from the spec: `new SenderKeyState(id, iteration, chainKey, null, signatureKey)`
builds a state holding the given key material (no private signing key, no
message keys). -/
def SenderKeyState.fromKeys (id iteration : Int) (chainKey signatureKey : Bytes) :
    SenderKeyState :=
  { senderKeyId := some id
    senderChainKey := some { iteration := some iteration, seed := some chainKey }
    senderSigningKey := some { pub := some signatureKey, priv := none }
    senderMessageKeys := [] }

/-- `class SenderKeyRecord`: the mutable `senderKeyStates` array (line 22). -/
structure SenderKeyRecord where
  senderKeyStates : List SenderKeyState
deriving DecidableEq

/-- `private readonly MAX_STATES = 5` (line 21). -/
def SenderKeyRecord.MAX_STATES : Nat := 5

/-- `isValidSenderKeyState` (lines 65–87): keyId is a number `> 0`, the chain
key is present with a numeric iteration `≥ 0`, and the public signing key is
present and non-empty.  A getter hitting a missing object (the `try`/`catch`)
yields `false`. -/
def isValidSenderKeyState (state : SenderKeyStateStructure) : Bool :=
  match state.senderKeyId with
  | none => false
  | some keyId =>
    if keyId ≤ 0 then false
    else
      match state.senderChainKey with
      | none => false
      | some chainKey =>
        match chainKey.iteration with
        | none => false
        | some iteration =>
          if iteration < 0 then false
          else
            match state.senderSigningKey with
            | none => false
            | some signingKey =>
              match signingKey.pub with
              | none => false
              | some publicKey => !(publicKey.isEmpty)

/-- The backward scan of `getSenderKeyState` (lines 45–50): iterate the index
from the end of the array down to 0 and return the first valid state found,
i.e. the valid state closest to the tail. -/
def findValidBackward : List SenderKeyStateStructure → Option SenderKeyStateStructure
  | [] => none
  | state :: rest =>
    match findValidBackward rest with
    | some s => some s
    | none => if isValidSenderKeyState state then some state else none

/-- `getSenderKeyState(keyId?)` (lines 36–63).  The JS method mutates the
record (it empties the array when no valid state exists), so the embedding
returns the result together with the record afterwards. -/
def SenderKeyRecord.getSenderKeyState (r : SenderKeyRecord) (keyId : Option Int) :
    Option SenderKeyStateStructure × SenderKeyRecord :=
  if keyId = none ∧ r.senderKeyStates.length ≠ 0 then
    match r.senderKeyStates.getLast? with
    | some recentState =>
      if isValidSenderKeyState recentState then (some recentState, r)
      else
        match findValidBackward r.senderKeyStates with
        | some s => (some s, r)
        | none => (none, ⟨[]⟩)
    | none => (none, r)
  else
    match r.senderKeyStates.find? (fun s => s.senderKeyId == keyId) with
    | some s => if isValidSenderKeyState s then (some s, r) else (none, r)
    | none => (none, r)

/-- `isEmpty()` (lines 32–34). -/
def SenderKeyRecord.isEmpty (r : SenderKeyRecord) : Bool :=
  r.senderKeyStates.length == 0

/-- `addSenderKeyState` (lines 89–94): push a new state built from the key
material; if the array then exceeds `MAX_STATES`, `shift()` the head off. -/
def SenderKeyRecord.addSenderKeyState (r : SenderKeyRecord) (id iteration : Int)
    (chainKey signatureKey : Bytes) : SenderKeyRecord :=
  let pushed := r.senderKeyStates ++ [SenderKeyState.fromKeys id iteration chainKey signatureKey]
  if pushed.length > SenderKeyRecord.MAX_STATES then ⟨pushed.tail⟩ else ⟨pushed⟩

/-- `serialize()` (lines 106–108). -/
def SenderKeyRecord.serialize (r : SenderKeyRecord) : List SenderKeyStateStructure :=
  r.senderKeyStates.map SenderKeyState.getStructure

/-- `deserialize(data)` on the pre-parsed branch (lines 116–120, `data` already
a structure array): `new SenderKeyRecord(parsed)` pushes one state per
structure (constructor, lines 24–30). -/
def SenderKeyRecord.deserialize (data : List SenderKeyStateStructure) : SenderKeyRecord :=
  ⟨data.map SenderKeyState.fromStructure⟩

/-- A sequence of `addSenderKeyState` calls, applied left to right; each call
is `(id, iteration, chainKey, signatureKey)`. -/
def applyAddCalls : SenderKeyRecord → List (Int × Int × Bytes × Bytes) → SenderKeyRecord
  | r, [] => r
  | r, c :: rest => applyAddCalls (r.addSenderKeyState c.1 c.2.1 c.2.2.1 c.2.2.2) rest

/-! ## Part 2: sender-key janitor (`cleanupCorruptedSenderKeys`, lines 1317–1393) -/

/-- One stored `sender-key` entry after the decode step of
`cleanupCorruptedSenderKeys` (lines 1326–1346): the raw value may be falsy
(skipped), may fail `JSON.parse` (the `catch`), may parse to a non-array, or
may parse to an array whose elements are possibly-null state structures. -/
inductive DecodedSenderKey where
  | nullData
  | decodeFailed
  | notArray
  | arr (states : List (Option SenderKeyStateStructure))
deriving DecidableEq

/-- The per-state check of the janitor (lines 1357–1367): the state is truthy,
`senderKeyId` is a number, `senderChainKey` is present with a numeric
`iteration` and a present `seed`, and `senderSigningKey` is present with a
present `public` field.  (A `Uint8Array` is truthy even when empty, so this is
a pure presence check: weaker than `isValidSenderKeyState`.) -/
def janitorStateOk : Option SenderKeyStateStructure → Bool
  | none => false
  | some state =>
    state.senderKeyId.isSome &&
    (match state.senderChainKey with
     | none => false
     | some chainKey => chainKey.iteration.isSome && chainKey.seed.isSome) &&
    (match state.senderSigningKey with
     | none => false
     | some signingKey => signingKey.pub.isSome)

/-- The per-entry action of `cleanupCorruptedSenderKeys` (lines 1326–1384):
`none` means the entry is left untouched, `some none` that it is marked for
deletion (`keysToUpdate[keyId] = null`), `some (some states)` that it is
rewritten with the given states.  The trim (lines 1349–1354) assigns
`keysToUpdate[keyId]` first and the validity filter (lines 1357–1378)
overwrites that same slot whenever any state fails the check. -/
def cleanupKeyEntry (maxStatesPerGroup : Nat) :
    DecodedSenderKey → Option (Option (List (Option SenderKeyStateStructure)))
  | DecodedSenderKey.nullData => none
  | DecodedSenderKey.decodeFailed => some none
  | DecodedSenderKey.notArray => some none
  | DecodedSenderKey.arr states =>
    if states.length = 0 then some none
    else
      let afterTrim : Option (Option (List (Option SenderKeyStateStructure))) :=
        if states.length > maxStatesPerGroup then
          some (some (states.drop (states.length - maxStatesPerGroup)))
        else none
      let validStates := states.filter janitorStateOk
      if validStates.length ≠ states.length then
        if validStates.length = 0 then some none else some (some validStates)
      else afterTrim

/-- What the key pass actually guarantees, stated as a function of its own
(the amended form of the claim about the aggressive janitor): an entry that
fails to decode or is not a non-empty array is deleted; states are filtered
with the basic structural check `janitorStateOk` (not the full
`isValidSenderKeyState` predicate); when every state passes the check the
tail `maxStatesPerGroup` states are kept if more remain; when some states
fail the check, exactly the passing states are kept, untrimmed; the whole
key is deleted when no state passes. -/
def cleanupKeyEntryAmended (maxStatesPerGroup : Nat) :
    DecodedSenderKey → Option (Option (List (Option SenderKeyStateStructure)))
  | DecodedSenderKey.nullData => none
  | DecodedSenderKey.decodeFailed => some none
  | DecodedSenderKey.notArray => some none
  | DecodedSenderKey.arr states =>
    let validStates := states.filter janitorStateOk
    if states.length = 0 ∨ validStates.length = 0 then some none
    else if validStates.length ≠ states.length then some (some validStates)
    else if states.length > maxStatesPerGroup then
      some (some (states.drop (states.length - maxStatesPerGroup)))
    else none

/-! ## Part 3: media connection lease (`refreshMediaConn`, lines 184–238) -/

/-- The closure state captured by `makeMessagesSocket` for the media
connection: `pendingMediaQueries.get('mediaConn')`, the `mediaConn` promise
variable and `lastMediaConnRefresh`.  Promises are identified by numeric
tokens; `nextId` supplies a fresh token for a newly started query. -/
structure MediaConnState where
  pending : Option Nat
  mediaConn : Option Nat
  lastRefresh : Nat
  nextId : Nat
deriving DecidableEq

/-- What one `refreshMediaConn` call returns: the promise handed to the
caller, whether a new `media_conn` query was started, and the closure state
after the call's synchronous prefix (the body up to `return` runs without
suspension, so it is atomic with respect to other callers). -/
structure RefreshResult where
  returned : Nat
  queryStarted : Bool
  state : MediaConnState
deriving DecidableEq

/-- `refreshMediaConn(forceGet)` (lines 184–238): an in-flight query is
returned as is; otherwise a fresh query starts iff there is no current value,
`forceGet` is set, or more than `MEDIA_CONN_CHECK_INTERVAL = 60000` ms passed
since the last successful refresh; otherwise the current value is returned.
A fresh query is stored both in `pendingMediaQueries` and in `mediaConn`. -/
def refreshMediaConn (s : MediaConnState) (now : Nat) (forceGet : Bool) : RefreshResult :=
  match s.pending with
  | some p => ⟨p, false, s⟩
  | none =>
    match s.mediaConn with
    | none =>
      ⟨s.nextId, true, ⟨some s.nextId, some s.nextId, s.lastRefresh, s.nextId + 1⟩⟩
    | some m =>
      if forceGet || decide (now - s.lastRefresh > 60000) then
        ⟨s.nextId, true, ⟨some s.nextId, some s.nextId, s.lastRefresh, s.nextId + 1⟩⟩
      else ⟨m, false, s⟩

/-- Completion of the in-flight query: the `finally` clause deletes the
pending entry; on success `lastMediaConnRefresh = now` stores the timestamp
captured when the query was started (line 224). -/
def completeMediaConn (s : MediaConnState) (initiatedNow : Nat) (success : Bool) :
    MediaConnState :=
  ⟨none, s.mediaConn, if success then initiatedNow else s.lastRefresh, s.nextId⟩

/-! ## Part 4: session assertion (`assertSessions`, lines 408–479) -/

/-- Events observable from one socket operation: key-store reads
(`authState.keys.get`), direct key-store writes (`authState.keys.set` outside
a transaction), writes buffered inside a transaction, transaction brackets,
outgoing `iq` queries, and the emission of a message stanza (`sendNode`). -/
inductive REvent where
  | keysGet (category : String)
  | keysSet (category : String)
  | txBegin
  | txSet (category : String)
  | queryStanza
  | sendNode
  | txEnd
deriving DecidableEq

/-- `[...new Set(jids)]`: deduplicate keeping the first occurrence of each
element. -/
def jsSetDedupGo : List String → List String → List String
  | _, [] => []
  | seen, x :: xs =>
    if seen.contains x then jsSetDedupGo seen xs
    else x :: jsSetDedupGo (x :: seen) xs

def jsSetDedup (l : List String) : List String := jsSetDedupGo [] l

/-- `verifiedSessionsCache.add(jid)`: a JS `Set` keeps one copy of each value. -/
def setAdd (v : List String) (j : String) : List String :=
  if v.contains j then v else v ++ [j]

def setAddAll (v : List String) (js : List String) : List String :=
  js.foldl setAdd v

/-- The result of one `assertSessions` call: whether any prekey fetch
happened (the returned boolean), the list fetched (`jidsRequiringFetch`
when the fetch fires, otherwise empty), the verified-sessions cache
afterwards, and the observable events.  `sessionHas j` models
`sessions[jidToSignalProtocolAddress(j)]` being present in the store. -/
structure AssertResult where
  didFetch : Bool
  fetched : List String
  verified : List String
  events : List REvent
deriving DecidableEq

/-- `assertSessions(jids, force)` (lines 408–479).  The prekey fetch installs
the returned bundles through the Signal repository ("the response is parsed
and each bundle is installed via the Signal repository", spec §4.E), which is
a session-store write buffered in the enclosing transaction: event
`txSet "session"`. -/
def assertSessions (verified : List String) (sessionHas : String → Bool)
    (jids : List String) (force : Bool) : AssertResult :=
  if jids = [] then ⟨false, [], verified, []⟩
  else
    let deduped := jsSetDedup jids
    if force then
      if deduped = [] then ⟨false, [], verified, []⟩
      else ⟨true, deduped, setAddAll verified deduped,
            [REvent.queryStanza, REvent.txSet "session"]⟩
    else
      let filtered := deduped.filter (fun j => !(verified.contains j))
      if filtered = [] then ⟨false, [], verified, []⟩
      else
        let requiring := filtered.filter (fun j => !(sessionHas j))
        let verifiedAfterRead := setAddAll verified (filtered.filter (fun j => sessionHas j))
        if requiring = [] then ⟨false, [], verifiedAfterRead, [REvent.keysGet "session"]⟩
        else
          ⟨true, requiring, setAddAll verifiedAfterRead requiring,
           [REvent.keysGet "session", REvent.queryStanza, REvent.txSet "session"]⟩

/-! ## Part 5: receipts (`sendReceipt`, lines 243–294) -/

/-- `BinaryNode`: tag, attributes and child nodes.  An attribute value of
`none` models an attribute assigned JS `undefined` (as `node.attrs.to =
participant!` does when `participant` is absent); byte content is not
modelled. -/
inductive BinaryNode where
  | node (tag : String) (attrs : List (String × Option String)) (children : List BinaryNode)

def BinaryNode.tag : BinaryNode → String
  | BinaryNode.node t _ _ => t

def BinaryNode.attrs : BinaryNode → List (String × Option String)
  | BinaryNode.node _ a _ => a

def BinaryNode.children : BinaryNode → List BinaryNode
  | BinaryNode.node _ _ c => c

/-- Does the char list `pat` start the char list `l`? -/
def listStartMatches : List Char → List Char → Bool
  | [], _ => true
  | _ :: _, [] => false
  | a :: as, b :: bs => a == b && listStartMatches as bs

/-- Modelled from the spec: `isJidUser` of the `WABinary` module (not under
`src/`) recognises individual jids, the ones on the `s.whatsapp.net` server
(spec §3).  It holds iff the jid ends with `@s.whatsapp.net`. -/
def isJidUser (jid : String) : Bool :=
  listStartMatches ("@s.whatsapp.net".toList.reverse) jid.toList.reverse

/-- `sendReceipt(jid, participant, messageIds, type)` (lines 243–294), as the
stanza it emits: `none` when `messageIds` is empty (the early return at line
244 emits nothing).  `now` models `unixTimestampSeconds()`; `rtype = none`
models an `undefined` receipt type, which skips the `type` attribute. -/
def sendReceiptNode (now : Nat) (jid : String) (participant : Option String)
    (messageIds : List String) (rtype : Option String) : Option BinaryNode :=
  match messageIds with
  | [] => none
  | firstId :: rest =>
    let attrs0 : List (String × Option String) := [("id", some firstId)]
    let attrs1 := attrs0 ++
      (if rtype == some "read" || rtype == some "read-self" then
        [("t", some (toString now))]
      else [])
    let attrs2 := attrs1 ++
      (if rtype == some "sender" && isJidUser jid then
        [("recipient", some jid), ("to", participant)]
      else
        [("to", some jid)] ++
          (match participant with
           | some p => [("participant", some p)]
           | none => []))
    let attrs3 := attrs2 ++
      (match rtype with
       | some t => [("type", some t)]
       | none => [])
    let content : List BinaryNode :=
      if rest = [] then []
      else
        [BinaryNode.node "list" []
          (rest.map (fun id => BinaryNode.node "item" [("id", some id)] []))]
    some (BinaryNode.node "receipt" attrs3 content)

/-! ## Part 6: the relay engine (`relayMessage`, lines 558–944)

The environment `RelayEnv` packs the closure state and the external
collaborators `relayMessage` consults (device resolution, the session
store, the verified-sessions cache, the stored `sender-key-memory` map for
the destination group, the per-jid ciphertext type the Signal repository
returns).  Network and store effects are recorded as an `REvent` trace;
the `Promise.all` over the participant blocks is serialised in block order
(each block's sender-key-memory loop runs without a suspension point, so
the shared map is updated atomically per block; the claims proved below do
not depend on the block order). -/

structure JidWithDevice where
  user : String
  device : Option Nat
deriving DecidableEq

/-- Modelled from the spec: `jidEncode` of the `WABinary` module (not under
`src/`) renders `user@server[:device]` (spec glossary: "structured
addressable identity user@server[:device]"). -/
def jidEncode (user server : String) (device : Option Nat) : String :=
  user ++ "@" ++ server ++
    (match device with
     | some d => ":" ++ toString d
     | none => "")

/-- `senderKeyMap[deviceJid] = true`. -/
def mapSetTrue (m : String → Bool) (k : String) : String → Bool :=
  fun x => if x = k then true else m x

/-- The sender-key-memory loop of `relayMessage` (lines 877–883 and 911–917):
for each resolved device, encode its jid; if the map does not yet hold it,
push it onto the distribution list and mark it in the map. -/
def computeSenderKeyJids (isLid : Bool) :
    (String → Bool) → List JidWithDevice → List String × (String → Bool)
  | m, [] => ([], m)
  | m, d :: rest =>
    let deviceJid := jidEncode d.user (if isLid then "lid" else "s.whatsapp.net") d.device
    if m deviceJid then computeSenderKeyJids isLid m rest
    else
      let r := computeSenderKeyJids isLid (mapSetTrue m deviceJid) rest
      (deviceJid :: r.1, r.2)

/-- The block-split path runs the loop once per block against the one shared
`senderKeyMap` object: per-block distribution lists plus the final map. -/
def groupSkdmFold (isLid : Bool) :
    (String → Bool) → List (List JidWithDevice) → List (List String) × (String → Bool)
  | m, [] => ([], m)
  | m, blk :: rest =>
    let c := computeSenderKeyJids isLid m blk
    let r := groupSkdmFold isLid c.2 rest
    (c.1 :: r.1, r.2)

/-- `for(let i = 0; i < len; i += blockSize) blocks.push(slice(i, i+blockSize))`
(lines 860–863), with the list's length as fuel (enough whenever
`blockSize ≥ 1`, which `config.participantBlockSize || 200` guarantees). -/
def chunkGo (blockSize : Nat) : Nat → List String → List (List String)
  | _, [] => []
  | 0, l => [l]
  | fuel + 1, l => l.take blockSize :: chunkGo blockSize fuel (l.drop blockSize)

def chunkList (blockSize : Nat) (l : List String) : List (List String) :=
  chunkGo blockSize l.length l

structure RelayEnv where
  meUser : String
  meLidUser : String
  meId : String
  blockSize : Nat
  groupParticipants : List String
  statusJidList : List String
  resolveDevices : List String → List JidWithDevice
  sessionHas : String → Bool
  verified : List String
  senderKeyMap : String → Bool
  encType : String → String

/-- `createParticipantNodes(jids, message, extraAttrs)` (lines 511–553) at the
stanza-shape level: one `<to jid>` node per recipient wrapping one
`<enc v="2" type>` child whose type the Signal repository determines
(ciphertext bytes are not modelled). -/
def createParticipantNodesModel (env : RelayEnv) (jids : List String) : List BinaryNode :=
  if jids = [] then []
  else
    jids.map (fun jid =>
      BinaryNode.node "to" [("jid", some jid)]
        [BinaryNode.node "enc" [("v", some "2"), ("type", some (env.encType jid))] []])

/-- The device jids of the direct (non-group) branch (lines 699–715): my own
user is rewritten to the lid user when sending over `lid`. -/
def directAllJids (env : RelayEnv) (isLid : Bool) (devices : List JidWithDevice) :
    List String :=
  devices.map (fun d =>
    let isMe := d.user == env.meUser
    let userPart :=
      if isMe && isLid then (if env.meLidUser == "" then d.user else env.meLidUser)
      else d.user
    jidEncode userPart (if isLid then "lid" else "s.whatsapp.net") d.device)

/-- `sendToParticipants(devices, senderKeyJids)` (lines 584–808): the event
trace and the participant nodes built for sender-key distribution.  An empty
device list returns before the transaction (line 585).  Inside the
transaction, the group branch re-reads `sender-key-memory` (line 637, not for
status), runs `assertSessions` and `createParticipantNodes` over the SKDM
targets when there are any (lines 660–678), writes `sender-key-memory` back
(line 688), and the direct branch asserts sessions for all device jids (line
718); `sendNode(stanza)` is the last statement of the transaction body (line
804).  The Signal repository's own store accesses inside
`encryptGroupMessage` / `encryptMessage` are abstracted away: they happen
inside the same transaction, before the final `sendNode`, and none is a
direct (unbuffered) write. -/
def sendToParticipantsModel (env : RelayEnv) (isLid isGroup isStatus : Bool)
    (devices : List JidWithDevice) (senderKeyJids : List String) :
    List REvent × List BinaryNode :=
  if devices = [] then ([], [])
  else if isGroup || isStatus then
    let readEvents := if isStatus then [] else [REvent.keysGet "sender-key-memory"]
    let skdmEvents :=
      if senderKeyJids = [] then []
      else (assertSessions env.verified env.sessionHas senderKeyJids false).events
    let skdmNodes :=
      if senderKeyJids = [] then []
      else createParticipantNodesModel env senderKeyJids
    ([REvent.txBegin] ++ readEvents ++ skdmEvents ++
      [REvent.txSet "sender-key-memory", REvent.sendNode, REvent.txEnd], skdmNodes)
  else
    let allJids := directAllJids env isLid devices
    let sessEvents := (assertSessions env.verified env.sessionHas allJids false).events
    ([REvent.txBegin] ++ sessEvents ++ [REvent.sendNode, REvent.txEnd], [])

/-- Outcome of one `relayMessage` invocation: the `sendToParticipants` calls
made (devices and sender-key distribution targets of each), the full event
trace, the concatenated SKDM target list, the SKDM participant nodes built,
and the `sender-key-memory` map for the destination group as the store holds
it after the invocation. -/
structure RelayOutcome where
  dispatches : List (List JidWithDevice × List String)
  trace : List REvent
  skdmTargets : List String
  skdmNodes : List BinaryNode
  finalMap : String → Bool

/-- `relayMessage(jid, message, options)` (lines 558–944), for a destination
decoded as `user@server`.  `participant` is the explicit participant override
(already decoded, lines 819–820); `isPeer` models
`additionalAttributes.category === 'peer'`.  Branching follows lines 810–944:
the override dispatches to the single device with an empty SKDM list; a group
or status destination resolves participants, splits into blocks over the
`participantBlockSize`, computes SKDM targets against `sender-key-memory`
(an empty map for status, which also never persists), and persists the
updated map (line 898, or line 921 only when there are new targets); any
other destination fans out to the two users' devices with no SKDM list.
The USync device-resolution queries of `getUSyncDevices` are not recorded as
events (they are reads of an external service, not of the key store, and are
not the message stanza). -/
def relayMessageModel (env : RelayEnv) (user server : String)
    (participant : Option JidWithDevice) (isPeer : Bool) : RelayOutcome :=
  let isGroup := server == "g.us"
  -- `jid === 'status@broadcast'`: a decoded `user@server` jid is the status
  -- jid exactly when its components are `status` and `broadcast`.
  let isStatus := user == "status" && server == "broadcast"
  let isLid := server == "lid"
  match participant with
  | some p =>
    let d := sendToParticipantsModel env isLid isGroup isStatus [p] []
    ⟨[([p], [])], d.1, [], d.2, env.senderKeyMap⟩
  | none =>
    if isGroup || isStatus then
      let participantsList :=
        (if isGroup then env.groupParticipants else []) ++
          (if isStatus then env.statusJidList else [])
      if participantsList.length > env.blockSize then
        let blocks := chunkList env.blockSize participantsList
        let deviceBlocks := blocks.map env.resolveDevices
        let initialMap : String → Bool :=
          if isStatus then (fun _ => false) else env.senderKeyMap
        let fold := groupSkdmFold isLid initialMap deviceBlocks
        let dispatches := List.zip deviceBlocks fold.1
        let results := dispatches.map
          (fun b => sendToParticipantsModel env isLid isGroup isStatus b.1 b.2)
        ⟨dispatches,
         (if isStatus then [] else [REvent.keysGet "sender-key-memory"]) ++
           (results.map Prod.fst).flatten ++
           (if isStatus then [] else [REvent.keysSet "sender-key-memory"]),
         fold.1.flatten,
         (results.map Prod.snd).flatten,
         if isStatus then env.senderKeyMap else fold.2⟩
      else
        let devices := env.resolveDevices participantsList
        if isStatus then
          let d := sendToParticipantsModel env isLid isGroup isStatus devices []
          ⟨[(devices, [])], d.1, [], d.2, env.senderKeyMap⟩
        else
          let c := computeSenderKeyJids isLid env.senderKeyMap devices
          let d := sendToParticipantsModel env isLid isGroup isStatus devices c.1
          ⟨[(devices, c.1)],
           [REvent.keysGet "sender-key-memory"] ++
             (if c.1 = [] then [] else [REvent.keysSet "sender-key-memory"]) ++ d.1,
           c.1, d.2,
           if c.1 = [] then env.senderKeyMap else c.2⟩
    else
      let devices : List JidWithDevice :=
        [⟨user, none⟩] ++
          (if user == env.meUser then [] else [(⟨env.meUser, none⟩ : JidWithDevice)]) ++
          (if isPeer then [] else env.resolveDevices [env.meId, user ++ "@" ++ server])
      let d := sendToParticipantsModel env isLid isGroup isStatus devices []
      ⟨[(devices, [])], d.1, [], d.2, env.senderKeyMap⟩

/-! ## Claims about SenderKeyRecord (C3, C4, C5) -/

theorem findValidBackward_eq_reverse_find (l : List SenderKeyStateStructure) :
    findValidBackward l = l.reverse.find? (fun s => isValidSenderKeyState s) := by
  induction l with
  | nil => rfl
  | cons x xs ih =>
    simp only [findValidBackward, ih, List.reverse_cons, List.find?_append]
    cases hx : xs.reverse.find? (fun s => isValidSenderKeyState s) <;>
      cases hvx : isValidSenderKeyState x <;> simp [List.find?, Option.or, hvx]

/-- C4: `getSenderKeyState` without a keyId returns the newest state passing
`isValidSenderKeyState`, scanning from the tail backward (the result is
`find?` over the reversed state list); when no valid state exists the call
returns `none` and leaves the record empty. -/
theorem getSenderKeyState_no_keyId_spec (r : SenderKeyRecord) :
    (r.getSenderKeyState none).1
        = r.senderKeyStates.reverse.find? (fun s => isValidSenderKeyState s) ∧
      ((r.getSenderKeyState none).1 = none →
        (r.getSenderKeyState none).2.senderKeyStates = []) := by
  obtain ⟨l⟩ := r
  cases l using List.reverseRecOn with
  | nil =>
    refine ⟨rfl, fun _ => rfl⟩
  | append_singleton ys a =>
    have hne : (ys ++ [a]).length ≠ 0 := by simp
    have hcond : (none : Option Int) = none ∧ (ys ++ [a]).length ≠ 0 := ⟨rfl, hne⟩
    have hrev : (ys ++ [a]).reverse = a :: ys.reverse := by simp
    by_cases hv : isValidSenderKeyState a
    · constructor
      · simp [SenderKeyRecord.getSenderKeyState, hcond, List.getLast?_concat, hv, hrev,
          List.find?]
      · intro hnone
        exfalso
        simp [SenderKeyRecord.getSenderKeyState, hcond, List.getLast?_concat, hv] at hnone
    · have hfb : findValidBackward (ys ++ [a])
          = ys.reverse.find? (fun s => isValidSenderKeyState s) := by
        rw [findValidBackward_eq_reverse_find, hrev]
        simp [List.find?, hv]
      cases hf : ys.reverse.find? (fun s => isValidSenderKeyState s) with
      | some s =>
        constructor
        · simp [SenderKeyRecord.getSenderKeyState, hcond, List.getLast?_concat, hv, hrev,
            List.find?, hfb, hf]
        · intro hnone
          exfalso
          simp [SenderKeyRecord.getSenderKeyState, hcond, List.getLast?_concat, hv, hfb,
            hf] at hnone
      | none =>
        constructor
        · simp [SenderKeyRecord.getSenderKeyState, hcond, List.getLast?_concat, hv, hrev,
            List.find?, hfb, hf]
        · intro _
          simp [SenderKeyRecord.getSenderKeyState, hcond, List.getLast?_concat, hv, hfb, hf]

/-- C5: deserializing the serialization of a record reproduces the record,
state for state and field for field. -/
theorem deserialize_serialize_id (r : SenderKeyRecord) :
    SenderKeyRecord.deserialize r.serialize = r := by
  obtain ⟨l⟩ := r
  simp only [SenderKeyRecord.deserialize, SenderKeyRecord.serialize, List.map_map,
    SenderKeyRecord.mk.injEq]
  exact List.map_id' l

/-- A sample well-formed state used by concrete instances below. -/
def sampleState (i : Int) : SenderKeyStateStructure :=
  { senderKeyId := some i
    senderChainKey := some { iteration := some 0, seed := some [0] }
    senderSigningKey := some { pub := some [1], priv := none }
    senderMessageKeys := [] }

/-- C3 counterexample: a record deserialized from six stored states (the
constructor caps nothing) still holds six states after an
`addSenderKeyState` call, so the state count is not bounded by 5 for every
record. -/
theorem addSenderKeyState_not_bounded_from_six :
    ¬ (((SenderKeyRecord.deserialize
            [sampleState 1, sampleState 2, sampleState 3, sampleState 4, sampleState 5,
              sampleState 6]).addSenderKeyState 7 0 [] []).senderKeyStates.length
          ≤ SenderKeyRecord.MAX_STATES) := by
  decide

/-- C3 (amended): starting from a record holding at most `MAX_STATES = 5`
states — in particular a freshly constructed record — any sequence of
`addSenderKeyState` calls keeps the count at most 5, and a call on a record
holding exactly 5 states drops the head (oldest) state and appends the new
one at the tail. -/
theorem addSenderKeyState_bounded (r : SenderKeyRecord)
    (calls : List (Int × Int × Bytes × Bytes)) (id iteration : Int)
    (chainKey signatureKey : Bytes)
    (h : r.senderKeyStates.length ≤ SenderKeyRecord.MAX_STATES) :
    (applyAddCalls r calls).senderKeyStates.length ≤ SenderKeyRecord.MAX_STATES ∧
      (r.senderKeyStates.length = SenderKeyRecord.MAX_STATES →
        (r.addSenderKeyState id iteration chainKey signatureKey).senderKeyStates
          = r.senderKeyStates.tail
              ++ [SenderKeyState.fromKeys id iteration chainKey signatureKey]) := by
  constructor
  · induction calls generalizing r with
    | nil => exact h
    | cons c rest ih =>
      show (applyAddCalls (r.addSenderKeyState c.1 c.2.1 c.2.2.1 c.2.2.2) rest).senderKeyStates.length
          ≤ SenderKeyRecord.MAX_STATES
      apply ih
      simp only [SenderKeyRecord.addSenderKeyState]
      split
      · next hgt =>
        show (r.senderKeyStates
            ++ [SenderKeyState.fromKeys c.1 c.2.1 c.2.2.1 c.2.2.2]).tail.length
          ≤ SenderKeyRecord.MAX_STATES
        simp only [List.length_tail, List.length_append, List.length_cons, List.length_nil]
        omega
      · next hgt =>
        show (r.senderKeyStates
            ++ [SenderKeyState.fromKeys c.1 c.2.1 c.2.2.1 c.2.2.2]).length
          ≤ SenderKeyRecord.MAX_STATES
        simp only [List.length_append, List.length_cons, List.length_nil] at hgt ⊢
        omega
  · intro h5
    simp only [SenderKeyRecord.addSenderKeyState]
    have hgt : (r.senderKeyStates
        ++ [SenderKeyState.fromKeys id iteration chainKey signatureKey]).length
          > SenderKeyRecord.MAX_STATES := by
      simp [h5]
    rw [if_pos hgt]
    obtain ⟨l⟩ := r
    cases l with
    | nil => simp [SenderKeyRecord.MAX_STATES] at h5
    | cons x xs => simp

/-- Witness for the amended C3 theorem: a concrete five-state record, three
further `addSenderKeyState` calls. -/
theorem addSenderKeyState_bounded_witness :
    (applyAddCalls
        ⟨[sampleState 1, sampleState 2, sampleState 3, sampleState 4, sampleState 5]⟩
        [(6, 0, [], []), (7, 0, [], []), (8, 0, [], [])]).senderKeyStates.length
        ≤ SenderKeyRecord.MAX_STATES ∧
      ((⟨[sampleState 1, sampleState 2, sampleState 3, sampleState 4, sampleState 5]⟩ :
            SenderKeyRecord).senderKeyStates.length = SenderKeyRecord.MAX_STATES →
        ((⟨[sampleState 1, sampleState 2, sampleState 3, sampleState 4, sampleState 5]⟩ :
              SenderKeyRecord).addSenderKeyState 9 0 [] []).senderKeyStates
          = (⟨[sampleState 1, sampleState 2, sampleState 3, sampleState 4, sampleState 5]⟩ :
              SenderKeyRecord).senderKeyStates.tail
              ++ [SenderKeyState.fromKeys 9 0 [] []]) :=
  addSenderKeyState_bounded
    ⟨[sampleState 1, sampleState 2, sampleState 3, sampleState 4, sampleState 5]⟩
    [(6, 0, [], []), (7, 0, [], []), (8, 0, [], [])] 9 0 [] [] (by decide)

/-! ## Claim about the janitor key pass (C6) -/

/-- A state that passes the janitor's structural check but fails
`isValidSenderKeyState` (its key id is 0). -/
def zeroKeyIdState : SenderKeyStateStructure :=
  { senderKeyId := some 0
    senderChainKey := some { iteration := some 0, seed := some [1] }
    senderSigningKey := some { pub := some [1], priv := none }
    senderMessageKeys := [] }

/-- A state the janitor's structural check rejects (missing key id). -/
def missingIdState : SenderKeyStateStructure :=
  { senderKeyId := none
    senderChainKey := some { iteration := some 0, seed := some [1] }
    senderSigningKey := some { pub := some [1], priv := none }
    senderMessageKeys := [] }

/-- C6 counterexample.  First conjunct: an entry whose only state fails the
SenderKeyState validity predicate (key id 0) is left untouched by the key
pass, though the claim demands it be filtered out and the key deleted.
Second conjunct: an entry with seven states of which one fails the
structural check is rewritten with all six passing states — more than
`maxStatesPerGroup = 5` — because the validity filter overwrites the
trimmed value. -/
theorem cleanupCorruptedSenderKeys_counterexample :
    (cleanupKeyEntry 5 (DecodedSenderKey.arr [some zeroKeyIdState]) = none ∧
        isValidSenderKeyState zeroKeyIdState = false) ∧
      (cleanupKeyEntry 5 (DecodedSenderKey.arr
            [some missingIdState, some (sampleState 1), some (sampleState 2),
              some (sampleState 3), some (sampleState 4), some (sampleState 5),
              some (sampleState 6)])).map (Option.map List.length)
        = some (some 6) := by
  decide

/-- C6 (amended): the key pass behaves exactly as `cleanupKeyEntryAmended`
states — delete undecodable, non-array and empty entries; filter by the basic
structural check `janitorStateOk` (weaker than `isValidSenderKeyState`); trim
to the tail `maxStatesPerGroup` states only when every state passes the
check; keep the passing states untrimmed when some state fails; delete the
key when none passes. -/
theorem cleanupKeyEntry_eq_amended (maxStatesPerGroup : Nat) (d : DecodedSenderKey) :
    cleanupKeyEntry maxStatesPerGroup d = cleanupKeyEntryAmended maxStatesPerGroup d := by
  cases d with
  | nullData => rfl
  | decodeFailed => rfl
  | notArray => rfl
  | arr states =>
    simp only [cleanupKeyEntry, cleanupKeyEntryAmended]
    by_cases h0 : states.length = 0
    · simp [h0]
    · rw [if_neg h0]
      by_cases hz : (states.filter janitorStateOk).length = 0
      · have hne : (states.filter janitorStateOk).length ≠ states.length := by
          omega
        have h0s : ¬(0 = states.length) := by omega
        simp [hne, hz, h0, h0s]
      · by_cases hne : (states.filter janitorStateOk).length ≠ states.length
        · simp [hne, hz, h0]
        · simp only [not_not] at hne
          simp [hne, hz, h0]

/-! ## Claim about the media connection lease (C7) -/

/-- C7: `refreshMediaConn` implements the single-flight refresh policy.
First conjunct: with a query in flight every caller gets that same promise,
starts no query and changes no state.  Second: with none in flight, a new
query starts exactly when there is no current value, the call is forced, or
more than 60000 ms passed since the last refresh, and the new promise is
recorded as pending.  Third: otherwise the current value is returned
untouched.  Fourth: a caller arriving after a call that started a query — as
a concurrent caller does, the in-flight promise still pending — receives the
identical promise and starts nothing. -/
theorem refreshMediaConn_single_flight (s : MediaConnState) (now : Nat) (forceGet : Bool) :
    (∀ p, s.pending = some p →
      refreshMediaConn s now forceGet = ⟨p, false, s⟩) ∧
    (s.pending = none →
      (s.mediaConn = none ∨ forceGet = true ∨ 60000 < now - s.lastRefresh) →
        refreshMediaConn s now forceGet
          = ⟨s.nextId, true, ⟨some s.nextId, some s.nextId, s.lastRefresh, s.nextId + 1⟩⟩) ∧
    (∀ m, s.pending = none → s.mediaConn = some m → forceGet = false →
      now - s.lastRefresh ≤ 60000 →
        refreshMediaConn s now forceGet = ⟨m, false, s⟩) ∧
    (∀ now2 force2, (refreshMediaConn s now forceGet).queryStarted = true →
      (refreshMediaConn (refreshMediaConn s now forceGet).state now2 force2).returned
          = (refreshMediaConn s now forceGet).returned ∧
        (refreshMediaConn (refreshMediaConn s now forceGet).state now2 force2).queryStarted
          = false) := by
  obtain ⟨pending, mediaConn, lastRefresh, nextId⟩ := s
  refine ⟨?_, ?_, ?_, ?_⟩
  · intro p hp
    cases pending with
    | none => cases hp
    | some q => cases hp; rfl
  · intro hp hcond
    cases pending with
    | some q => cases hp
    | none =>
      cases mediaConn with
      | none => rfl
      | some m =>
        rcases hcond with h | h | h
        · cases h
        · simp [refreshMediaConn, h]
        · simp [refreshMediaConn, h]
  · intro m hp hm hf hle
    cases pending with
    | some q => cases hp
    | none =>
      cases mediaConn with
      | none => cases hm
      | some m' =>
        cases hm
        simp [refreshMediaConn, hf, Nat.not_lt.mpr hle]
  · intro now2 force2 hstart
    cases pending with
    | some q => simp [refreshMediaConn] at hstart
    | none =>
      cases mediaConn with
      | none => simp [refreshMediaConn]
      | some m =>
        by_cases hc : (forceGet || decide (now - lastRefresh > 60000)) = true
        · simp [refreshMediaConn, hc]
        · simp [refreshMediaConn, hc] at hstart

/-! ## Claim about assertSessions (C8) -/

theorem mem_setAdd_left (v : List String) (j x : String) (h : x ∈ v) : x ∈ setAdd v j := by
  unfold setAdd
  split
  · exact h
  · exact List.mem_append_left _ h

theorem mem_setAdd_self (v : List String) (j : String) : j ∈ setAdd v j := by
  unfold setAdd
  split
  · next h => exact List.elem_iff.mp h
  · exact List.mem_append_right _ (List.mem_singleton.mpr rfl)

theorem mem_setAddAll_left (v js : List String) (x : String) (h : x ∈ v) :
    x ∈ setAddAll v js := by
  induction js generalizing v with
  | nil => exact h
  | cons j rest ih => exact ih _ (mem_setAdd_left _ _ _ h)

theorem mem_setAddAll_right (v js : List String) (x : String) (h : x ∈ js) :
    x ∈ setAddAll v js := by
  induction js generalizing v with
  | nil => cases h
  | cons j rest ih =>
    rcases List.mem_cons.mp h with rfl | h2
    · show x ∈ setAddAll (setAdd v x) rest
      exact mem_setAddAll_left _ _ _ (mem_setAdd_self _ _)
    · exact ih _ h2

/-- After a completed `assertSessions(J, false)`, every deduplicated jid of
`J` is in the verified-sessions cache: it was either there before, dropped by
the filter, found in the session store, or fetched. -/
theorem assertSessions_verified_superset (v : List String) (s : String → Bool)
    (J : List String) (x : String) (hx : x ∈ jsSetDedup J) :
    x ∈ (assertSessions v s J false).verified := by
  unfold assertSessions
  by_cases hJ : J = []
  · subst hJ
    cases hx
  · rw [if_neg hJ]
    simp only [Bool.false_eq_true, if_false]
    by_cases hf : (jsSetDedup J).filter (fun j => !(v.contains j)) = []
    · rw [if_pos hf]
      have h2 := List.filter_eq_nil_iff.mp hf x hx
      have h1 : v.contains x = true := by
        cases hc : v.contains x
        · rw [hc] at h2
          simp at h2
        · rfl
      exact List.elem_iff.mp h1
    · rw [if_neg hf]
      by_cases hxf : x ∈ (jsSetDedup J).filter (fun j => !(v.contains j))
      · by_cases hs : s x = true
        · have hmem : x ∈ ((jsSetDedup J).filter (fun j => !(v.contains j))).filter
              (fun j => s j) :=
            List.mem_filter.mpr ⟨hxf, hs⟩
          split
          · exact mem_setAddAll_right _ _ _ hmem
          · exact mem_setAddAll_left _ _ _ (mem_setAddAll_right _ _ _ hmem)
        · have hreq : x ∈ ((jsSetDedup J).filter (fun j => !(v.contains j))).filter
              (fun j => !(s j)) := by
            refine List.mem_filter.mpr ⟨hxf, ?_⟩
            simp [hs]
          split
          · next hr => rw [hr] at hreq; cases hreq
          · exact mem_setAddAll_right _ _ _ hreq
      · have hv : x ∈ v := by
          by_contra hnv
          apply hxf
          refine List.mem_filter.mpr ⟨hx, ?_⟩
          cases hcv : v.contains x
          · rfl
          · exact ((hnv (List.elem_iff.mp hcv)).elim)
        split
        · exact mem_setAddAll_left _ _ _ hv
        · exact mem_setAddAll_left _ _ _ (mem_setAddAll_left _ _ _ hv)

/-- A call whose deduplicated jids are all already verified returns `false`
with no store read, no fetch and no event. -/
theorem assertSessions_all_verified (v : List String) (s : String → Bool)
    (J : List String) (h : ∀ x ∈ jsSetDedup J, x ∈ v) :
    assertSessions v s J false = ⟨false, [], v, []⟩ := by
  unfold assertSessions
  by_cases hJ : J = []
  · simp [hJ]
  · rw [if_neg hJ]
    simp only [Bool.false_eq_true, if_false]
    have hf : (jsSetDedup J).filter (fun j => !(v.contains j)) = [] := by
      apply List.filter_eq_nil_iff.mpr
      intro a ha
      have hc : v.contains a = true := List.elem_iff.mpr (h a ha)
      simp only [hc, Bool.not_true, Bool.false_eq_true, not_false_eq_true]
    rw [if_pos hf]

/-- C8: calling `assertSessions(J, false)` immediately after a completed
`assertSessions(J, false)` — the verified-sessions cache not evicted in
between, the session store arbitrary — fetches nothing: it returns `false`,
consults no store, emits no query, and leaves the cache unchanged. -/
theorem assertSessions_repeat_no_fetch (v : List String) (s s2 : String → Bool)
    (J : List String) :
    assertSessions (assertSessions v s J false).verified s2 J false
      = ⟨false, [], (assertSessions v s J false).verified, []⟩ :=
  assertSessions_all_verified _ _ _
    (fun x hx => assertSessions_verified_superset v s J x hx)

/-! ## Claim about sendReceipt (C9) -/

/-- C9: for non-empty ids the emitted receipt stanza carries `id = ids[0]`; a
unix-seconds `t` attribute exactly when the type is `read` or `read-self`;
for type `sender` to a user jid, `recipient = jid` and `to = participant`
(the participant value as given, `undefined` included); otherwise `to = jid`
with `participant` present exactly when given; and a `<list>` of `<item>`
children for the remaining ids exactly when there is more than one id.  An
empty id list emits nothing. -/
theorem sendReceipt_spec (now : Nat) (jid : String) (participant : Option String)
    (messageIds : List String) (rtype : Option String) :
    (messageIds = [] → sendReceiptNode now jid participant messageIds rtype = none) ∧
    (∀ firstId rest, messageIds = firstId :: rest →
      ∃ n, sendReceiptNode now jid participant messageIds rtype = some n ∧
        n.tag = "receipt" ∧
        n.attrs.lookup "id" = some (some firstId) ∧
        (n.attrs.lookup "t"
          = if rtype == some "read" || rtype == some "read-self" then
              some (some (toString now))
            else none) ∧
        (if rtype == some "sender" && isJidUser jid then
          n.attrs.lookup "recipient" = some (some jid) ∧
            n.attrs.lookup "to" = some participant
         else
          n.attrs.lookup "to" = some (some jid) ∧
            n.attrs.lookup "recipient" = none ∧
            n.attrs.lookup "participant" = participant.map some) ∧
        (n.children
          = if rest = [] then []
            else
              [BinaryNode.node "list" []
                (rest.map (fun id => BinaryNode.node "item" [("id", some id)] []))])) := by
  constructor
  · intro h
    subst h
    rfl
  · intro firstId rest h
    subst h
    refine ⟨_, rfl, rfl, ?_, ?_, ?_, ?_⟩
    · by_cases hs : (rtype == some "sender" && isJidUser jid) = true
      · obtain ⟨h2, h3⟩ := Bool.and_eq_true_iff.mp hs
        rw [beq_iff_eq] at h2
        subst h2
        cases participant <;>
          simp [sendReceiptNode, BinaryNode.attrs, List.lookup, h3]
      · cases rtype with
        | none =>
          cases participant <;>
            simp [sendReceiptNode, BinaryNode.attrs, List.lookup, hs]
        | some val =>
          by_cases hA : val = "read" ∨ val = "read-self"
          · rcases hA with h1 | h1 <;> subst h1 <;> cases participant <;>
              simp [sendReceiptNode, BinaryNode.attrs, List.lookup, hs]
          · have hA1 : ¬ val = "read" := fun hh => hA (Or.inl hh)
            have hA2 : ¬ val = "read-self" := fun hh => hA (Or.inr hh)
            have hSnd : ¬ (val = "sender" ∧ isJidUser jid = true) := by
              intro hc
              apply hs
              rw [Bool.and_eq_true_iff]
              refine ⟨?_, hc.2⟩
              rw [beq_iff_eq, hc.1]
            cases participant <;>
              simp [sendReceiptNode, BinaryNode.attrs, List.lookup, hs, hA1, hA2, hSnd]
    · by_cases hs : (rtype == some "sender" && isJidUser jid) = true
      · obtain ⟨h2, h3⟩ := Bool.and_eq_true_iff.mp hs
        rw [beq_iff_eq] at h2
        subst h2
        cases participant <;>
          simp [sendReceiptNode, BinaryNode.attrs, List.lookup, h3]
      · cases rtype with
        | none =>
          cases participant <;>
            simp [sendReceiptNode, BinaryNode.attrs, List.lookup, hs]
        | some val =>
          by_cases hA : val = "read" ∨ val = "read-self"
          · rcases hA with h1 | h1 <;> subst h1 <;> cases participant <;>
              simp [sendReceiptNode, BinaryNode.attrs, List.lookup, hs]
          · have hA1 : ¬ val = "read" := fun hh => hA (Or.inl hh)
            have hA2 : ¬ val = "read-self" := fun hh => hA (Or.inr hh)
            have hSnd : ¬ (val = "sender" ∧ isJidUser jid = true) := by
              intro hc
              apply hs
              rw [Bool.and_eq_true_iff]
              refine ⟨?_, hc.2⟩
              rw [beq_iff_eq, hc.1]
            cases participant <;>
              simp [sendReceiptNode, BinaryNode.attrs, List.lookup, hs, hA1, hA2, hSnd]
    · by_cases hs : (rtype == some "sender" && isJidUser jid) = true
      · obtain ⟨h2, h3⟩ := Bool.and_eq_true_iff.mp hs
        rw [beq_iff_eq] at h2
        subst h2
        cases participant <;>
          simp [sendReceiptNode, BinaryNode.attrs, List.lookup, h3]
      · cases rtype with
        | none =>
          cases participant <;>
            simp [sendReceiptNode, BinaryNode.attrs, List.lookup, hs]
        | some val =>
          by_cases hA : val = "read" ∨ val = "read-self"
          · rcases hA with h1 | h1 <;> subst h1 <;> cases participant <;>
              simp [sendReceiptNode, BinaryNode.attrs, List.lookup, hs]
          · have hA1 : ¬ val = "read" := fun hh => hA (Or.inl hh)
            have hA2 : ¬ val = "read-self" := fun hh => hA (Or.inr hh)
            have hSnd : ¬ (val = "sender" ∧ isJidUser jid = true) := by
              intro hc
              apply hs
              rw [Bool.and_eq_true_iff]
              refine ⟨?_, hc.2⟩
              rw [beq_iff_eq, hc.1]
            cases participant <;>
              simp [sendReceiptNode, BinaryNode.attrs, List.lookup, hs, hA1, hA2, hSnd]
    · by_cases hr : rest = [] <;>
        simp [sendReceiptNode, BinaryNode.children, hr]

/-! ## Claims about the relay engine (C1, C2, C10) -/

theorem mapSetTrue_preserves (m : String → Bool) (k j : String) (h : m j = true) :
    mapSetTrue m k j = true := by
  unfold mapSetTrue
  split
  · rfl
  · exact h

theorem mapSetTrue_self (m : String → Bool) (k : String) : mapSetTrue m k k = true := by
  unfold mapSetTrue
  simp

theorem computeSenderKeyJids_map_mono (isLid : Bool) (ds : List JidWithDevice)
    (m : String → Bool) (j : String) (h : m j = true) :
    (computeSenderKeyJids isLid m ds).2 j = true := by
  induction ds generalizing m with
  | nil => exact h
  | cons d rest ih =>
    simp only [computeSenderKeyJids]
    cases hm : m (jidEncode d.user (if isLid then "lid" else "s.whatsapp.net") d.device)
    · simp only [Bool.false_eq_true, if_false]
      exact ih _ (mapSetTrue_preserves m _ j h)
    · simp only [eq_self_iff_true, if_true]
      exact ih m h

theorem computeSenderKeyJids_mem_map (isLid : Bool) (ds : List JidWithDevice)
    (m : String → Bool) (j : String)
    (h : j ∈ (computeSenderKeyJids isLid m ds).1) :
    (computeSenderKeyJids isLid m ds).2 j = true := by
  induction ds generalizing m with
  | nil => cases h
  | cons d rest ih =>
    simp only [computeSenderKeyJids] at h ⊢
    cases hm : m (jidEncode d.user (if isLid then "lid" else "s.whatsapp.net") d.device) <;>
      rw [hm] at h
    · simp only [Bool.false_eq_true, if_false] at h ⊢
      rcases List.mem_cons.mp h with rfl | h2
      · exact computeSenderKeyJids_map_mono isLid rest _ _ (mapSetTrue_self m _)
      · exact ih _ h2
    · simp only [eq_self_iff_true, if_true] at h ⊢
      exact ih m h

theorem computeSenderKeyJids_not_mem (isLid : Bool) (ds : List JidWithDevice)
    (m : String → Bool) (j : String) (h : m j = true) :
    j ∉ (computeSenderKeyJids isLid m ds).1 := by
  induction ds generalizing m with
  | nil => simp [computeSenderKeyJids]
  | cons d rest ih =>
    simp only [computeSenderKeyJids]
    cases hm : m (jidEncode d.user (if isLid then "lid" else "s.whatsapp.net") d.device)
    · simp only [Bool.false_eq_true, if_false]
      intro hmem
      rcases List.mem_cons.mp hmem with rfl | h2
      · rw [h] at hm
        cases hm
      · exact ih _ (mapSetTrue_preserves m _ j h) h2
    · simp only [eq_self_iff_true, if_true]
      exact ih m h

theorem groupSkdmFold_map_mono (isLid : Bool) (blocks : List (List JidWithDevice))
    (m : String → Bool) (j : String) (h : m j = true) :
    (groupSkdmFold isLid m blocks).2 j = true := by
  induction blocks generalizing m with
  | nil => exact h
  | cons blk rest ih =>
    exact ih _ (computeSenderKeyJids_map_mono isLid blk m j h)

theorem groupSkdmFold_mem_map (isLid : Bool) (blocks : List (List JidWithDevice))
    (m : String → Bool) (j : String)
    (h : j ∈ (groupSkdmFold isLid m blocks).1.flatten) :
    (groupSkdmFold isLid m blocks).2 j = true := by
  induction blocks generalizing m with
  | nil => cases h
  | cons blk rest ih =>
    simp only [groupSkdmFold, List.flatten_cons, List.mem_append] at h
    rcases h with h1 | h2
    · exact groupSkdmFold_map_mono isLid rest _ j
        (computeSenderKeyJids_mem_map isLid blk m j h1)
    · exact ih _ h2

theorem groupSkdmFold_not_mem (isLid : Bool) (blocks : List (List JidWithDevice))
    (m : String → Bool) (j : String) (h : m j = true) :
    j ∉ (groupSkdmFold isLid m blocks).1.flatten := by
  induction blocks generalizing m with
  | nil => simp [groupSkdmFold]
  | cons blk rest ih =>
    simp only [groupSkdmFold, List.flatten_cons, List.mem_append]
    rintro (h1 | h2)
    · exact computeSenderKeyJids_not_mem isLid blk m j h h1
    · exact ih _ (computeSenderKeyJids_map_mono isLid blk m j h) h2

/-- Every jid added to the distribution list by the sender-key-memory loop is
marked in the resulting map, so a later relay reading that map skips it. -/
theorem relay_group_mem_finalMap (env : RelayEnv) (u : String) (p : Bool) (D : String)
    (hD : D ∈ (relayMessageModel env u "g.us" none p).skdmTargets) :
    (relayMessageModel env u "g.us" none p).finalMap D = true := by
  have hg : (("g.us" : String) == "g.us") = true := rfl
  have hb : (("g.us" : String) == "broadcast") = false := rfl
  have hl : (("g.us" : String) == "lid") = false := rfl
  simp only [relayMessageModel, hg, hb, hl, Bool.and_false, Bool.true_or, Bool.or_false,
    Bool.false_eq_true, if_false, eq_self_iff_true, if_true, List.append_nil] at hD ⊢
  by_cases hlen : env.groupParticipants.length > env.blockSize
  · rw [if_pos hlen] at hD ⊢
    exact groupSkdmFold_mem_map false _ env.senderKeyMap D hD
  · rw [if_neg hlen] at hD ⊢
    have hne : (computeSenderKeyJids false env.senderKeyMap
        (env.resolveDevices env.groupParticipants)).1 ≠ [] := by
      intro hnil
      rw [hnil] at hD
      cases hD
    simp only [if_neg hne]
    exact computeSenderKeyJids_mem_map false _ env.senderKeyMap D hD

/-- A jid already marked in the stored sender-key-memory map is never a
distribution target of a group relay reading that map. -/
theorem relay_group_not_mem_targets (env : RelayEnv) (u : String) (p : Bool) (D : String)
    (hD : env.senderKeyMap D = true) :
    D ∉ (relayMessageModel env u "g.us" none p).skdmTargets := by
  have hg : (("g.us" : String) == "g.us") = true := rfl
  have hb : (("g.us" : String) == "broadcast") = false := rfl
  have hl : (("g.us" : String) == "lid") = false := rfl
  simp only [relayMessageModel, hg, hb, hl, Bool.and_false, Bool.true_or, Bool.or_false,
    Bool.false_eq_true, if_false, eq_self_iff_true, if_true, List.append_nil]
  by_cases hlen : env.groupParticipants.length > env.blockSize
  · rw [if_pos hlen]
    exact groupSkdmFold_not_mem false _ env.senderKeyMap D hD
  · rw [if_neg hlen]
    exact computeSenderKeyJids_not_mem false _ env.senderKeyMap D hD

/-- C2: if a group `relayMessage` dispatched the sender key distribution to
device jid `D` (it is among the call's SKDM targets), a later group relay
whose stored sender-key-memory is the state the first call produced does not
carry `D` among its SKDM targets, whatever its participants, resolved
devices, and other collaborators. -/
theorem relay_group_skdm_not_redistributed (env1 env2 : RelayEnv) (u1 u2 : String)
    (p1 p2 : Bool) (D : String)
    (hmap : env2.senderKeyMap = (relayMessageModel env1 u1 "g.us" none p1).finalMap)
    (hD : D ∈ (relayMessageModel env1 u1 "g.us" none p1).skdmTargets) :
    D ∉ (relayMessageModel env2 u2 "g.us" none p2).skdmTargets :=
  relay_group_not_mem_targets env2 u2 p2 D
    (by rw [hmap]; exact relay_group_mem_finalMap env1 u1 p1 D hD)

/-- A concrete relay environment: participants `alice` and `bob`, one device
each, empty sender-key memory, no sessions, nothing verified. -/
def envTwoBlocks : RelayEnv :=
  { meUser := "me"
    meLidUser := ""
    meId := "me@s.whatsapp.net"
    blockSize := 1
    groupParticipants := ["alice", "bob"]
    statusJidList := []
    resolveDevices := fun l => l.map (fun u => ⟨u, none⟩)
    sessionHas := fun _ => false
    verified := []
    senderKeyMap := fun _ => false
    encType := fun _ => "pkmsg" }

def envSkdmFirst : RelayEnv := { envTwoBlocks with blockSize := 200 }

def envSkdmSecond : RelayEnv :=
  { envTwoBlocks with
      blockSize := 200
      senderKeyMap := (relayMessageModel envSkdmFirst "friends" "g.us" none false).finalMap }

/-- Witness for C2: `alice@s.whatsapp.net` received the distribution in the
first relay to the group, and the second relay over the stored map does not
target it again. -/
theorem relay_group_skdm_not_redistributed_witness :
    "alice@s.whatsapp.net"
      ∉ (relayMessageModel envSkdmSecond "friends" "g.us" none false).skdmTargets :=
  relay_group_skdm_not_redistributed envSkdmFirst envSkdmSecond "friends" "friends"
    false false "alice@s.whatsapp.net" rfl (by decide)

/-- With an empty sender-key distribution list, `sendToParticipants` builds
no SKDM participant nodes (the guard at line 660 skips the whole block). -/
theorem sendToParticipants_no_skdm_nodes (env : RelayEnv) (isLid isGroup isStatus : Bool)
    (devices : List JidWithDevice) :
    (sendToParticipantsModel env isLid isGroup isStatus devices []).2 = [] := by
  simp only [sendToParticipantsModel]
  split
  · rfl
  · split
    · simp
    · rfl

/-- C10: a `relayMessage` call with an explicit participant override
dispatches exactly once, to exactly that one decoded device, with an empty
sender-key distribution list; no SKDM participant nodes are built and the
stored sender-key-memory map is left untouched — for every destination
(groups included) and every stored map. -/
theorem relayMessage_participant_override (env : RelayEnv) (user server : String)
    (p : JidWithDevice) (isPeer : Bool) :
    (relayMessageModel env user server (some p) isPeer).dispatches = [([p], [])] ∧
      (relayMessageModel env user server (some p) isPeer).skdmTargets = [] ∧
      (relayMessageModel env user server (some p) isPeer).skdmNodes = [] ∧
      (relayMessageModel env user server (some p) isPeer).finalMap = env.senderKeyMap := by
  refine ⟨rfl, rfl, ?_, rfl⟩
  simp only [relayMessageModel]
  exact sendToParticipants_no_skdm_nodes env _ _ _ [p]

/-- The events the dispatch transaction body can contain before the final
`sendNode`: key-store reads, the buffered session and sender-key-memory
writes, and the prekey `iq` query. -/
def benignDispatchEvent (e : REvent) : Prop :=
  e = REvent.keysGet "sender-key-memory" ∨ e = REvent.keysGet "session" ∨
    e = REvent.queryStanza ∨ e = REvent.txSet "session" ∨
    e = REvent.txSet "sender-key-memory"

theorem assertSessions_events_benign (v : List String) (s : String → Bool)
    (J : List String) (force : Bool) (e : REvent)
    (he : e ∈ (assertSessions v s J force).events) : benignDispatchEvent e := by
  unfold benignDispatchEvent
  simp only [assertSessions] at he
  split at he
  · cases he
  · split at he
    · split at he
      · cases he
      · simp only [List.mem_cons, List.not_mem_nil, or_false] at he
        rcases he with rfl | rfl
        · exact Or.inr (Or.inr (Or.inl rfl))
        · exact Or.inr (Or.inr (Or.inr (Or.inl rfl)))
    · split at he
      · cases he
      · split at he
        · simp only [List.mem_cons, List.not_mem_nil, or_false] at he
          rcases he with rfl
          exact Or.inr (Or.inl rfl)
        · simp only [List.mem_cons, List.not_mem_nil, or_false] at he
          rcases he with rfl | rfl | rfl
          · exact Or.inr (Or.inl rfl)
          · exact Or.inr (Or.inr (Or.inl rfl))
          · exact Or.inr (Or.inr (Or.inr (Or.inl rfl)))

/-- C1 (amended): every dispatch — each `sendToParticipants` call with a
non-empty device list — runs exactly one transaction and emits the message
stanza exactly once, as the last action of the transaction body: the trace is
`txBegin`, then only reads, the prekey query and transaction-buffered writes,
then `sendNode`, then `txEnd`; no direct (unbuffered) key-store write occurs
inside a dispatch. -/
theorem relay_dispatch_emits_once (env : RelayEnv) (isLid isGroup isStatus : Bool)
    (devices : List JidWithDevice) (senderKeyJids : List String)
    (h : devices ≠ []) :
    ∃ mid,
      (sendToParticipantsModel env isLid isGroup isStatus devices senderKeyJids).1
          = REvent.txBegin :: (mid ++ [REvent.sendNode, REvent.txEnd]) ∧
        REvent.sendNode ∉ mid ∧ REvent.txBegin ∉ mid ∧ REvent.txEnd ∉ mid ∧
        (∀ c, REvent.keysSet c ∉ mid) := by
  have hclean : ∀ (mid : List REvent), (∀ e ∈ mid, benignDispatchEvent e) →
      REvent.sendNode ∉ mid ∧ REvent.txBegin ∉ mid ∧ REvent.txEnd ∉ mid ∧
        (∀ c, REvent.keysSet c ∉ mid) := by
    intro mid hben
    refine ⟨fun hm => ?_, fun hm => ?_, fun hm => ?_, fun c hm => ?_⟩ <;>
      rcases hben _ hm with h1 | h1 | h1 | h1 | h1 <;> cases h1
  simp only [sendToParticipantsModel, if_neg h]
  by_cases hg : (isGroup || isStatus) = true
  · rw [if_pos hg]
    refine ⟨(if isStatus then [] else [REvent.keysGet "sender-key-memory"]) ++
        ((if senderKeyJids = [] then []
          else (assertSessions env.verified env.sessionHas senderKeyJids false).events) ++
          [REvent.txSet "sender-key-memory"]), ?_, ?_⟩
    · simp
    · apply hclean
      intro e he
      rcases List.mem_append.mp he with h1 | h1
      · revert h1
        cases isStatus <;> intro h1
        · simp only [Bool.false_eq_true, if_false, List.mem_singleton] at h1
          exact Or.inl (h1 ▸ rfl)
        · cases h1
      · rcases List.mem_append.mp h1 with h2 | h2
        · revert h2
          split <;> intro h2
          · cases h2
          · exact assertSessions_events_benign _ _ _ _ _ h2
        · simp only [List.mem_singleton] at h2
          exact Or.inr (Or.inr (Or.inr (Or.inr (h2 ▸ rfl))))
  · rw [if_neg hg]
    refine ⟨(assertSessions env.verified env.sessionHas
        (directAllJids env isLid devices) false).events, ?_, ?_⟩
    · simp
    · apply hclean
      intro e he
      exact assertSessions_events_benign _ _ _ _ _ he

/-- Witness for the amended C1 theorem: a concrete group dispatch with one
device and one distribution target. -/
theorem relay_dispatch_emits_once_witness :
    ∃ mid,
      (sendToParticipantsModel envTwoBlocks false true false [⟨"alice", none⟩]
          ["alice@s.whatsapp.net"]).1
          = REvent.txBegin :: (mid ++ [REvent.sendNode, REvent.txEnd]) ∧
        REvent.sendNode ∉ mid ∧ REvent.txBegin ∉ mid ∧ REvent.txEnd ∉ mid ∧
        (∀ c, REvent.keysSet c ∉ mid) :=
  relay_dispatch_emits_once envTwoBlocks false true false [⟨"alice", none⟩]
    ["alice@s.whatsapp.net"] (by decide)

/-- C1 counterexample: with `participantBlockSize = 1` and two participants
(one device each), one `relayMessage` invocation splits into two blocks and
emits the message stanza twice, not exactly once; moreover the final
sender-key-memory write is a direct store write that happens after both
emissions, not a write buffered before emission in one enclosing
transaction. -/
theorem relayMessage_emits_twice :
    (relayMessageModel envTwoBlocks "friends" "g.us" none false).trace.count
        REvent.sendNode = 2 ∧
      (relayMessageModel envTwoBlocks "friends" "g.us" none false).trace.count
        REvent.sendNode ≠ 1 ∧
      (relayMessageModel envTwoBlocks "friends" "g.us" none false).trace.getLast?
        = some (REvent.keysSet "sender-key-memory") := by
  decide
